import Mathlib

/-!
# Verification of the Gatsby mutation action layer (`src/packages/gatsby/src/redux/actions.js`)

This file gives a shallow embedding of the action creators in
`src/packages/gatsby/src/redux/actions.js` and proves properties of them.

JavaScript records are embedded as Lean structures; absent object fields are
represented by `Option` (`none` = the field is absent / `undefined`).
JavaScript truthiness is embedded explicitly: a string field is truthy when it
is present and non-empty (`truthyStr`), while an object field is truthy exactly
when it is present (`Option.isSome`), since every JavaScript object — including
the empty object — is truthy.

External collaborators that are not part of the source file (the Joi schemas,
`createUuid`, `getNode`, `hasNodeChanged`, lodash string helpers, `glob`,
`path.parse`, `joinPath`, `generateComponentChunkName`, `Date.now`, and the
redux store snapshot) are modelled from the specification; each such definition
carries a doc comment saying so.  In-place mutation of caller-supplied records
(the source mutates `node` and `parent` directly) is embedded by returning the
mutated record alongside the action's result.
-/

/-- JavaScript truthiness for an optional string field: truthy iff present and
non-empty (`undefined`, `null` and `""` are falsy). -/
def truthyStr : Option String → Bool
  | none => false
  | some s => s ≠ ""

/-- Association-list lookup for string-keyed JavaScript objects
(`obj[key]`, yielding `undefined` when absent). -/
def lookupKey {α : Type} : List (String × α) → String → Option α
  | [], _ => none
  | (k, v) :: rest, key => if k = key then some v else lookupKey rest key

/-- Association-list update for string-keyed JavaScript objects
(`obj[key] = value`): replaces the value in place if the key is present,
appends the pair otherwise (JavaScript objects keep insertion order). -/
def setKey {α : Type} : List (String × α) → String → α → List (String × α)
  | [], key, v => [(key, v)]
  | (k, w) :: rest, key, v =>
      if k = key then (k, v) :: rest else (k, w) :: setKey rest key v

/-- A plugin identity (`type Plugin = { name: string }`). -/
structure Plugin where
  name : String
deriving DecidableEq

/-- The `internal` sub-object of a node.  All fields are optional in
JavaScript; `fieldOwners` maps field names to owning plugin names. -/
structure NodeInternal where
  type : Option String := none
  contentDigest : Option String := none
  owner : Option String := none
  mediaType : Option String := none
  content : Option String := none
  fieldOwners : Option (List (String × String)) := none
deriving DecidableEq

/-- A node record.  `fields` maps extension-field names to values; it is
absent (`none`) on nodes that never went through `createNodeField`. -/
structure Node where
  id : String
  parent : Option String := none
  children : List String := []
  internal : NodeInternal := {}
  fields : Option (List (String × Option String)) := none
deriving DecidableEq

/-- The action-layer state read and written by `createNode`: the stored node
map (`store.getState().nodes`, reached through the `getNode` collaborator) and
the module-level `typeOwners` table (line 264 of the source). -/
structure ActionState where
  nodes : List (String × Node) := []
  typeOwners : List (String × String) := []
deriving DecidableEq

/-- Modelled from the spec: the `getNode(id)` collaborator consumed from
`./index` — looks the node up in the authoritative node map. -/
def getNode (nodes : List (String × Node)) (id : String) : Option Node :=
  lookupKey nodes id

/-- Modelled from the spec: the `hasNodeChanged(id, digest)` collaborator —
"Looks up the stored digest for `nodeId`; absent ⇒ New; present and equal
(exact string match) ⇒ Unchanged; present and different ⇒ Changed."  Returns
`true` exactly when the classification is New or Changed. -/
def hasNodeChanged (nodes : List (String × Node)) (id : String)
    (digest : Option String) : Bool :=
  match getNode nodes id with
  | none => true
  | some n => n.internal.contentDigest ≠ digest

/-- Modelled from the spec: the Identity Service `deriveId(requestedId,
pluginName)` (`createUuid` from `../utils/uuid`) — "returns a deterministic id
derived from the combination of requested id and plugin identity".  Any
deterministic combination of the two inputs is faithful at this level. -/
def createUuid (id : String) (pluginName : String) : String :=
  pluginName ++ "/" ++ id

/-- Modelled from the spec: the Joi `nodeSchema` — "`internal.type` and
`internal.contentDigest` required on nodes". -/
def validateNode (n : Node) : Bool :=
  n.internal.type.isSome && n.internal.contentDigest.isSome

/-- Events produced by the node-mutating action creators. -/
inductive NodeEvent where
  /-- `{ type: CREATE_NODE, plugin, traceId, payload: node }` -/
  | createNode (plugin : Option Plugin) (traceId : Option String) (payload : Node)
  /-- `{ type: TOUCH_NODE, plugin, traceId, payload: nodeId }` -/
  | touchNode (plugin : Option Plugin) (traceId : Option String) (payload : String)
deriving DecidableEq

/-- The possible results of `actions.createNode`.  The source signals the
failure cases by `process.exit(1)` (owner field pre-set), a returned
`{ type: VALIDATION_ERROR, error: true }` marker, and thrown `Error`s
(reserved `fields` key, foreign type owner, foreign node owner). -/
inductive NodeResult where
  | event (e : NodeEvent)
  | validationError
  | fatalOwnerSet
  | fatalFields
  | fatalTypeOwner (existingOwner : String)
  | fatalNodeOwner (existingOwner : Option String)
deriving DecidableEq

/-- Lines 347–351 of the source: when a plugin is supplied, stamp
`node.internal.owner = plugin.name` and derive `node.id = createUuid(node.id,
plugin.name)`; otherwise leave the node unchanged. -/
def stampNode (node : Node) (plugin : Option Plugin) : Node :=
  match plugin with
  | none => node
  | some p =>
      { node with
        id := createUuid node.id p.name
        internal := { node.internal with owner := some p.name } }

/-- `actions.createNode(node, plugin, traceId)` (lines 322–443).  The source
mutates the caller's `node` object and the module-level `typeOwners` table, so
the embedding returns the (possibly mutated) node and state alongside the
result.  The initial `_.isObject` guard and the `trackSubObjectsToRootNodeId`
side effect are outside the model (every Lean `Node` is an object, and the
tracking map is not consumed here); the `if (!node.internal)` defaulting is
absorbed by `internal` being a total field of the `Node` structure. -/
def createNode (node : Node) (plugin : Option Plugin) (traceId : Option String)
    (st : ActionState) : NodeResult × Node × ActionState :=
  -- Tell user not to set the owner name themself (`if (node.internal.owner)`):
  -- fatal, `process.exit(1)`.
  if truthyStr node.internal.owner then (.fatalOwnerSet, node, st)
  else
    -- Add the plugin name to the internal object and generate uuid for the id.
    let node := stampNode node plugin
    -- Joi validation: `return { type: VALIDATION_ERROR, error: true }`.
    if ¬ validateNode node then (.validationError, node, st)
    -- Ensure node isn't directly setting fields (`if (node.fields) throw`);
    -- any present `fields` object is truthy, even the empty one.
    else if node.fields.isSome then (.fatalFields, node, st)
    else
      let oldNode := getNode st.nodes node.id
      -- Lines 388–425, the `if (plugin)` block: type claim (which mutates
      -- `typeOwners` before any later throw), then the node-owner check.
      let checked : Except (NodeResult × ActionState) ActionState :=
        match plugin with
        | none => .ok st
        | some p =>
            let t := (node.internal.type).getD "undefined"
            let curOwner := lookupKey st.typeOwners t
            -- `if (!typeOwners[type]) typeOwners[type] = pluginName
            --  else if (typeOwners[type] !== pluginName) throw`
            let claimed : Except (NodeResult × ActionState) ActionState :=
              if ¬ truthyStr curOwner then
                .ok { st with typeOwners := setKey st.typeOwners t p.name }
              else if curOwner ≠ some p.name then
                .error (.fatalTypeOwner (curOwner.getD ""), st)
              else .ok st
            match claimed with
            | .error e => .error e
            | .ok st1 =>
                -- `if (oldNode && oldNode.internal.owner !== pluginName) throw`
                -- (a throw here keeps the type claim already written to `st1`)
                match oldNode with
                | some old =>
                    if old.internal.owner ≠ some p.name then
                      .error (.fatalNodeOwner old.internal.owner, st1)
                    else .ok st1
                | none => .ok st1
      match checked with
      | .error (r, st2) => (r, node, st2)
      | .ok st1 =>
          -- `if (oldNode && !hasNodeChanged(node.id, node.internal.contentDigest))`
          if oldNode.isSome ∧ ¬ hasNodeChanged st.nodes node.id node.internal.contentDigest then
            (.event (.touchNode plugin traceId node.id), node, st1)
          else
            (.event (.createNode plugin traceId node), node, st1)

/-- `actions.touchNode(nodeId, plugin)` (lines 455–461): unconditionally emits
a `TOUCH_NODE` event; there is no traceId and no check of any kind. -/
def touchNode (nodeId : String) (plugin : Option Plugin) : NodeEvent :=
  .touchNode plugin none nodeId

/-- The result of `actions.createNodeField`: an `ADD_FIELD_TO_NODE` event or
the thrown "A plugin tried to update a node field that it doesn't own" error,
which carries the existing owner for the diagnostic. -/
inductive FieldResult where
  | event (plugin : Plugin) (traceId : Option String) (payload : Node)
  | fatalFieldOwner (existingOwner : String)
deriving DecidableEq

/-- `actions.createNodeField({node, name, value, fieldName, fieldValue},
plugin, traceId)` (lines 492–546).  The deprecated `fieldName`/`fieldValue`
aliases are mapped onto `name`/`value` when the latter are falsy; the node's
`fields` and `internal.fieldOwners` containers are initialised when absent;
the field-owner check throws on a foreign owner; otherwise the field value and
field ownership are written into the node and it is emitted as the payload.
The source mutates the caller's node, so the mutated node is returned
alongside the result. -/
def createNodeField (node : Node) (name value fieldName fieldValue : Option String)
    (plugin : Plugin) (traceId : Option String) : FieldResult × Node :=
  -- `if (fieldName) { ...; if (!name) name = fieldName }`
  let name := if truthyStr fieldName ∧ ¬ truthyStr name then fieldName else name
  -- `if (fieldValue) { ...; if (!value) value = fieldValue }`
  let value := if truthyStr fieldValue ∧ ¬ truthyStr value then fieldValue else value
  -- `if (!node.internal.fieldOwners) node.internal.fieldOwners = {}`
  -- (an object is truthy whenever present, so only absence triggers this)
  let node := { node with internal :=
    { node.internal with fieldOwners := some (node.internal.fieldOwners.getD []) } }
  -- `if (!node.fields) node.fields = {}`
  let node := { node with fields := some (node.fields.getD []) }
  -- JavaScript uses `name` as a property key; an `undefined` name coerces to
  -- the key "undefined".
  let key := name.getD "undefined"
  -- `const fieldOwner = node.internal.fieldOwners[name]
  --  if (fieldOwner && fieldOwner !== plugin.name) throw`
  let fieldOwner := lookupKey (node.internal.fieldOwners.getD []) key
  if truthyStr fieldOwner ∧ fieldOwner ≠ some plugin.name then
    (.fatalFieldOwner (fieldOwner.getD ""), node)
  else
    -- `node.fields[name] = value; node.internal.fieldOwners[name] = plugin.name`
    let node := { node with
      fields := some (setKey (node.fields.getD []) key value)
      internal := { node.internal with
        fieldOwners := some (setKey (node.internal.fieldOwners.getD []) key plugin.name) } }
    (.event plugin traceId node, node)

/-- `_.uniq`: removes duplicates keeping the first occurrence of each element.
`seen` accumulates the elements already kept. -/
def uniqAux (seen : List String) : List String → List String
  | [] => []
  | x :: xs => if x ∈ seen then uniqAux seen xs else x :: uniqAux (x :: seen) xs

/-- `_.uniq` on a list of node ids. -/
def uniq (l : List String) : List String :=
  uniqAux [] l

/-- The `ADD_CHILD_NODE_TO_PARENT_NODE` event emitted by
`actions.createParentChildLink`; its payload is the mutated parent node. -/
structure LinkEvent where
  plugin : Option Plugin
  payload : Node
deriving DecidableEq

/-- `actions.createParentChildLink({parent, child}, plugin)` (lines 556–569):
`parent.children.push(child.id); parent.children = _.uniq(parent.children)`,
then emits the mutated parent as the payload. -/
def createParentChildLink (parent child : Node) (plugin : Option Plugin) :
    LinkEvent :=
  let parent := { parent with children := uniq (parent.children ++ [child.id]) }
  { plugin := plugin, payload := parent }

/-- The store snapshot consumed by `createPage`, `createLayout` and
`createRedirect`.  `hasDefaultLayout` models the
`glob.sync(joinPath(directory, "src/layouts/index.*")).length` probe, and
`now` models `Date.now()`; both are external collaborators. -/
structure StoreState where
  directory : String := ""
  hasDefaultLayout : Bool := false
  now : Nat := 0
  prefixPaths : Bool := false
  pathPrefix : String := ""
deriving DecidableEq

/-- The `CREATE_REDIRECT` payload. -/
structure Redirect where
  fromPath : String
  isPermanent : Bool
  redirectInBrowser : Bool
  toPath : String
deriving DecidableEq

/-- The input record of `actions.createRedirect`; absent `isPermanent` and
`redirectInBrowser` default to `false` in the source's destructuring. -/
structure RedirectInput where
  fromPath : String
  isPermanent : Option Bool := none
  redirectInBrowser : Option Bool := none
  toPath : String
deriving DecidableEq

/-- The `CREATE_REDIRECT` event. -/
structure RedirectEvent where
  payload : Redirect
deriving DecidableEq

/-- `actions.createRedirect({fromPath, isPermanent = false, redirectInBrowser
= false, toPath, ...rest})` (lines 754–776): when
`store.getState().program.prefixPaths` is set, the configured
`config.pathPrefix` is prepended to both `fromPath` and `toPath`.  The
`...rest` passthrough of extra properties is outside the fixed-field model. -/
def createRedirect (r : RedirectInput) (store : StoreState) : RedirectEvent :=
  let pathPrefix := if store.prefixPaths then store.pathPrefix else ""
  { payload :=
    { fromPath := pathPrefix ++ r.fromPath
      isPermanent := r.isPermanent.getD false
      redirectInBrowser := r.redirectInBrowser.getD false
      toPath := pathPrefix ++ r.toPath } }

/-- Alphanumeric ASCII characters, the word constituents used by the lodash
string helpers below. -/
def isWordChar (c : Char) : Bool :=
  c.isAlpha || c.isDigit

/-- Splits a character list into maximal runs of word characters; `acc` holds
the current run reversed.  (Structural-recursion replacement for the
non-structural `String.split` of the core library.) -/
def wordsAux : List Char → List Char → List String
  | [], acc => if acc.isEmpty then [] else [String.mk acc.reverse]
  | c :: cs, acc =>
      if isWordChar c then wordsAux cs (c :: acc)
      else if acc.isEmpty then wordsAux cs []
      else String.mk acc.reverse :: wordsAux cs []

/-- Modelled from the spec: the word-splitting underlying lodash's
`kebabCase`/`camelCase` — the derived names are "deterministic from path".
Splits on non-alphanumeric separators (the model does not split inside
camelCased words, which no path in this development exercises). -/
def wordsOf (s : String) : List String :=
  wordsAux s.data []

/-- Lowercases a string character by character. -/
def toLowerStr (s : String) : String :=
  String.mk (s.data.map Char.toLower)

/-- Uppercases the first character, leaving the rest unchanged
(lodash `upperFirst`). -/
def upperFirst (s : String) : String :=
  match s.data with
  | [] => ""
  | c :: cs => String.mk (c.toUpper :: cs)

/-- Lowercases the whole word and uppercases its first character
(lodash `capitalize`). -/
def capitalizeWord (s : String) : String :=
  upperFirst (toLowerStr s)

/-- Joins strings with a separator (structural-recursion replacement for
`String.intercalate`). -/
def joinSep (sep : String) : List String → String
  | [] => ""
  | [w] => w
  | w :: ws => w ++ sep ++ joinSep sep ws

/-- Concatenates a list of strings. -/
def joinAll : List String → String
  | [] => ""
  | w :: ws => w ++ joinAll ws

/-- Modelled from the spec: lodash `_.kebabCase` — lowercased words joined
with `-`. -/
def kebabCase (s : String) : String :=
  joinSep "-" ((wordsOf s).map toLowerStr)

/-- Modelled from the spec: lodash `_.camelCase` — first word lowercased,
subsequent words capitalized, concatenated. -/
def camelCase (s : String) : String :=
  match wordsOf s with
  | [] => ""
  | w :: ws => joinAll (toLowerStr w :: ws.map capitalizeWord)

/-- `const pascalCase = _.flow(_.camelCase, _.upperFirst)` (line 82). -/
def pascalCase (s : String) : String :=
  upperFirst (camelCase s)

/-- Modelled from the spec: `generateComponentChunkName` from
`../utils/js-chunk-names` — a chunk name "deterministic from ... component
file identity". -/
def generateComponentChunkName (componentPath : String) : String :=
  "component---" ++ kebabCase componentPath

/-- Modelled from the spec: `joinPath` from `../utils/path` — joins path
segments with `/`. -/
def joinPath (segments : List String) : String :=
  joinSep "/" segments

/-- Splits a character list at every occurrence of `sep`; `acc` holds the
current segment reversed.  (Structural-recursion replacement for
`String.split` at a single separator character.) -/
def splitCharAux (sep : Char) : List Char → List Char → List String
  | [], acc => [String.mk acc.reverse]
  | c :: cs, acc =>
      if c = sep then String.mk acc.reverse :: splitCharAux sep cs []
      else splitCharAux sep cs (c :: acc)

/-- Splits a string at every occurrence of the character `sep`. -/
def splitChar (s : String) (sep : Char) : List String :=
  splitCharAux sep s.data []

/-- Modelled from the spec: `path.parse(component).name` — the file's base
name without its final extension. -/
def parseFileName (p : String) : String :=
  let base := (splitChar p '/').getLastD p
  match splitChar base '.' with
  | [] => base
  | [w] => w
  | parts => joinSep "." parts.dropLast

/-- JavaScript's `s[0] === c`: whether the string's first character is `c`
(`false` on the empty string, whose `s[0]` is `undefined`). -/
def firstCharIs (s : String) (c : Char) : Bool :=
  match s.data with
  | [] => false
  | c0 :: _ => c0 = c

/-- The `page` argument of `actions.createPage`. -/
structure PageInput where
  path : String
  matchPath : Option String := none
  component : String
  layout : Option String := none
  context : Option (List (String × String)) := none
deriving DecidableEq

/-- The internal `Page` record built by `createPage` and emitted as the
`CREATE_PAGE` payload. -/
structure Page where
  layout : Option String
  jsonName : String
  internalComponentName : String
  path : String
  matchPath : Option String
  component : String
  componentChunkName : String
  context : List (String × String)
  updatedAt : Nat
deriving DecidableEq

/-- Modelled from the spec: the Joi `pageSchema` — "`path` must be a non-empty
string beginning with `/`", and the page's component must be a usable file
reference (a non-empty string). -/
def validatePage (p : Page) : Bool :=
  p.path ≠ "" && firstCharIs p.path '/' && p.component ≠ ""

/-- The result of `actions.createPage`: a `CREATE_PAGE` event, or — on a
schema-validation failure — a reported no-op (`console.log` of the full
offending record followed by `return null`), carrying that record. -/
inductive PageResult where
  | event (plugin : Option Plugin) (traceId : Option String) (payload : Page)
  | reported (offending : Page)
deriving DecidableEq

/-- Lines 106–140 of `actions.createPage`: the internal `Page` record built
from the input before validation — `jsonName` and `internalComponentName`
derived from the path (with the special `/` ⇒ `index.json` / `ComponentIndex`
case), the conventional `index` layout fallback, and the leading-slash
normalization of the path. -/
def buildInternalPage (page : PageInput) (store : StoreState) : Page :=
  let jsonName := kebabCase page.path ++ ".json"
  let internalComponentName := "Component" ++ pascalCase page.path
  -- `if (jsonName === ".json") { jsonName = "index.json"; ... }`
  let (jsonName, internalComponentName) :=
    if jsonName = ".json" then ("index.json", "ComponentIndex")
    else (jsonName, internalComponentName)
  -- `let layout = page.layout || null`
  let layout := if truthyStr page.layout then page.layout else none
  -- `if (!layout && glob.sync(...).length) layout = "index"`
  let layout := if layout = none ∧ store.hasDefaultLayout then some "index" else layout
  let internalPage : Page :=
    { layout := layout
      jsonName := jsonName
      internalComponentName := internalComponentName
      path := page.path
      matchPath := page.matchPath
      component := page.component
      componentChunkName := generateComponentChunkName page.component
      context := page.context.getD []
      updatedAt := store.now }
  -- `if (internalPage.path[0] !== "/") internalPage.path = "/" + internalPage.path`
  if ¬ firstCharIs internalPage.path '/' then
    { internalPage with path := "/" ++ internalPage.path }
  else internalPage

/-- `actions.createPage(page, plugin, traceId)` (lines 105–156): builds the
internal page record, validates it, and either reports the offending record
(a no-op, `return null`) or emits `CREATE_PAGE`. -/
def createPage (page : PageInput) (plugin : Option Plugin) (traceId : Option String)
    (store : StoreState) : PageResult :=
  let internalPage := buildInternalPage page store
  if ¬ validatePage internalPage then .reported internalPage
  else .event plugin traceId internalPage

/-- The `layout` argument of `actions.createLayout`. -/
structure LayoutInput where
  id : Option String := none
  component : String
  context : Option (List (String × String)) := none
deriving DecidableEq

/-- The internal `Layout` record built by `createLayout` and emitted as the
`CREATE_LAYOUT` payload. -/
structure Layout where
  id : String
  machineId : String
  componentWrapperPath : String
  isLayout : Bool
  jsonName : String
  internalComponentName : String
  component : String
  componentChunkName : String
  context : List (String × String)
deriving DecidableEq

/-- Modelled from the spec: the Joi `layoutSchema` — the layout's `component`
must be a usable file reference (a non-empty string). -/
def validateLayout (l : Layout) : Bool :=
  l.component ≠ ""

/-- The result of `actions.createLayout`: a `CREATE_LAYOUT` event, or — on a
schema-validation failure — a reported no-op carrying the full offending
record. -/
inductive LayoutResult where
  | event (plugin : Option Plugin) (traceId : Option String) (payload : Layout)
  | reported (offending : Layout)
deriving DecidableEq

/-- Lines 191–213 of `actions.createLayout`: the internal `Layout` record
built from the input before validation — the id derived from the component
file name when not given, the machine id `layout---<id>`, and the wrapper
path under `.cache/layouts`. -/
def buildInternalLayout (layout : LayoutInput) (store : StoreState) : Layout :=
  -- `let id = layout.id || path.parse(layout.component).name`
  let id := if truthyStr layout.id then layout.id.getD "" else parseFileName layout.component
  let machineId := "layout---" ++ id
  let componentWrapperPath :=
    joinPath [store.directory, ".cache", "layouts", id ++ ".js"]
  { id := id
    machineId := machineId
    componentWrapperPath := componentWrapperPath
    isLayout := true
    jsonName := "layout-" ++ kebabCase id ++ ".json"
    internalComponentName := "Component-layout-" ++ pascalCase id
    component := layout.component
    componentChunkName := generateComponentChunkName layout.component
    context := layout.context.getD [] }

/-- `actions.createLayout(layout, plugin, traceId)` (lines 186–232): builds
the internal layout record, validates it, and either reports the offending
record (a no-op, `return null`) or emits `CREATE_LAYOUT`. -/
def createLayout (layout : LayoutInput) (plugin : Option Plugin)
    (traceId : Option String) (store : StoreState) : LayoutResult :=
  let internalLayout := buildInternalLayout layout store
  if ¬ validateLayout internalLayout then .reported internalLayout
  else .event plugin traceId internalLayout

theorem mem_uniqAux {x : String} {l : List String} :
    ∀ {seen : List String}, x ∈ uniqAux seen l ↔ x ∈ l ∧ x ∉ seen := by
  induction l with
  | nil => intro seen; simp [uniqAux]
  | cons y ys ih =>
    intro seen
    by_cases hy : y ∈ seen
    · rw [uniqAux, if_pos hy, ih]
      constructor
      · rintro ⟨h1, h2⟩
        exact ⟨List.mem_cons_of_mem _ h1, h2⟩
      · rintro ⟨h1, h2⟩
        rcases List.mem_cons.mp h1 with rfl | h1
        · exact absurd hy h2
        · exact ⟨h1, h2⟩
    · rw [uniqAux, if_neg hy, List.mem_cons, ih]
      constructor
      · rintro (rfl | ⟨h1, h2⟩)
        · exact ⟨List.mem_cons_self _ _, hy⟩
        · exact ⟨List.mem_cons_of_mem _ h1, fun hx => h2 (List.mem_cons_of_mem _ hx)⟩
      · rintro ⟨h1, h2⟩
        by_cases hxy : x = y
        · exact Or.inl hxy
        · rcases List.mem_cons.mp h1 with rfl | h1
          · exact Or.inl rfl
          · exact Or.inr ⟨h1, fun hx => (List.mem_cons.mp hx).elim hxy h2⟩

theorem nodup_uniqAux {l : List String} :
    ∀ {seen : List String}, (uniqAux seen l).Nodup := by
  induction l with
  | nil => intro seen; simp [uniqAux]
  | cons y ys ih =>
    intro seen
    rw [uniqAux]
    split
    · exact ih
    · rw [List.nodup_cons]
      exact ⟨fun hmem => (mem_uniqAux.mp hmem).2 (List.mem_cons_self _ _), ih⟩

theorem uniqAux_sublist {l : List String} :
    ∀ {seen : List String}, List.Sublist (uniqAux seen l) l := by
  induction l with
  | nil => intro seen; simp [uniqAux]
  | cons y ys ih =>
    intro seen
    rw [uniqAux]
    split
    · exact ih.trans (List.sublist_cons_self _ _)
    · exact List.Sublist.cons₂ _ ih

theorem uniqAux_eq_self {l : List String} :
    ∀ {seen : List String}, l.Nodup → (∀ x ∈ l, x ∉ seen) → uniqAux seen l = l := by
  induction l with
  | nil => intro seen _ _; rfl
  | cons y ys ih =>
    intro seen hnd hdisj
    rw [uniqAux, if_neg (hdisj y (List.mem_cons_self _ _))]
    congr 1
    refine ih (List.nodup_cons.mp hnd).2 fun x hx hmem => ?_
    rcases List.mem_cons.mp hmem with rfl | hmem
    · exact (List.nodup_cons.mp hnd).1 hx
    · exact hdisj x (List.mem_cons_of_mem _ hx) hmem

theorem uniqAux_append_mem {c : String} {l : List String} :
    ∀ {seen : List String}, c ∈ l ∨ c ∈ seen →
      uniqAux seen (l ++ [c]) = uniqAux seen l := by
  induction l with
  | nil =>
    intro seen h
    have hc : c ∈ seen := by
      rcases h with h | h
      · cases h
      · exact h
    simp [uniqAux, hc]
  | cons y ys ih =>
    intro seen h
    rw [List.cons_append, uniqAux, uniqAux]
    by_cases hy : y ∈ seen
    · rw [if_pos hy, if_pos hy]
      refine ih ?_
      rcases h with h | h
      · rcases List.mem_cons.mp h with rfl | h
        · exact Or.inr hy
        · exact Or.inl h
      · exact Or.inr h
    · rw [if_neg hy, if_neg hy]
      congr 1
      refine ih ?_
      rcases h with h | h
      · rcases List.mem_cons.mp h with rfl | h
        · exact Or.inr (List.mem_cons_self _ _)
        · exact Or.inl h
      · exact Or.inr (List.mem_cons_of_mem _ h)

theorem mem_uniq {x : String} {l : List String} : x ∈ uniq l ↔ x ∈ l := by
  simp [uniq, mem_uniqAux]

theorem nodup_uniq {l : List String} : (uniq l).Nodup := nodup_uniqAux

theorem uniq_sublist {l : List String} : List.Sublist (uniq l) l := uniqAux_sublist

theorem uniq_eq_self {l : List String} (h : l.Nodup) : uniq l = l :=
  uniqAux_eq_self h (by simp)

theorem uniq_append_mem {c : String} {l : List String} (h : c ∈ l) :
    uniq (l ++ [c]) = uniq l :=
  uniqAux_append_mem (Or.inl h)

theorem uniq_idem {l : List String} : uniq (uniq l) = uniq l :=
  uniq_eq_self nodup_uniq

/-- C6: `createParentChildLink` is idempotent: for every parent node and child
node, linking the same child to the same parent twice results in the child id
appearing exactly once in the parent's children list, and linking preserves
first-occurrence order of existing children (the emitted children list is a
sublist of the parent's previous children followed by the child id). -/
theorem createParentChildLink_idempotent (parent child : Node) (plugin : Option Plugin) :
    ((createParentChildLink parent child plugin).payload.children.count child.id = 1)
    ∧ (createParentChildLink (createParentChildLink parent child plugin).payload
        child plugin).payload = (createParentChildLink parent child plugin).payload
    ∧ ((createParentChildLink parent child plugin).payload.children.Sublist
        (parent.children ++ [child.id])) := by
  have hch : (createParentChildLink parent child plugin).payload.children
      = uniq (parent.children ++ [child.id]) := rfl
  have hmem : child.id ∈ (createParentChildLink parent child plugin).payload.children := by
    rw [hch]; exact mem_uniq.mpr (by simp)
  refine ⟨?_, ?_, ?_⟩
  · exact List.count_eq_one_of_mem (hch ▸ nodup_uniq) hmem
  · show ({ (createParentChildLink parent child plugin).payload with
        children := uniq ((createParentChildLink parent child plugin).payload.children ++ [child.id]) } : Node)
      = (createParentChildLink parent child plugin).payload
    have h2 : uniq ((createParentChildLink parent child plugin).payload.children ++ [child.id])
        = (createParentChildLink parent child plugin).payload.children := by
      rw [uniq_append_mem hmem, hch, uniq_idem]
    rw [h2]
  · exact hch ▸ uniq_sublist

/-- The payload of a `CREATE_PAGE` event, or `none` when no event was
emitted. -/
def pagePayload : PageResult → Option Page
  | .event _ _ p => some p
  | .reported _ => none

/-- The payload of a `CREATE_LAYOUT` event, or `none` when no event was
emitted. -/
def layoutPayload : LayoutResult → Option Layout
  | .event _ _ l => some l
  | .reported _ => none

/-- C7: `createPage` normalizes the page path by prepending a leading slash
when absent: `createPage({path: "foo"})` emits a payload with
`path === "/foo"`; and for the root path, `createPage({path: "/"})` emits a
payload with `jsonName === "index.json"` and
`internalComponentName === "ComponentIndex"`. -/
theorem createPage_path_normalization :
    ((pagePayload (createPage { path := "foo", component := "/src/templates/t.js" }
        none none {})).map Page.path = some "/foo")
    ∧ ((pagePayload (createPage { path := "/", component := "/src/templates/t.js" }
        none none {})).map Page.jsonName = some "index.json")
    ∧ ((pagePayload (createPage { path := "/", component := "/src/templates/t.js" }
        none none {})).map Page.internalComponentName = some "ComponentIndex") := by
  decide

/-- C8: for every redirect input, when a path prefix is configured,
`createRedirect` emits a payload whose `fromPath` and `toPath` are the
configured prefix prepended to the supplied `fromPath` and `toPath`. -/
theorem createRedirect_prepends_path_prefix (r : RedirectInput) (store : StoreState)
    (h : store.prefixPaths = true) :
    (createRedirect r store).payload.fromPath = store.pathPrefix ++ r.fromPath
    ∧ (createRedirect r store).payload.toPath = store.pathPrefix ++ r.toPath := by
  simp [createRedirect, h]

/-- Witness for C8 at the spec's example: prefix `/blog`,
`createRedirect({fromPath: "/old", toPath: "/new"})` yields
`fromPath === "/blog/old"` and `toPath === "/blog/new"`. -/
theorem createRedirect_prepends_path_prefix_witness :
    (createRedirect { fromPath := "/old", toPath := "/new" }
        { prefixPaths := true, pathPrefix := "/blog" }).payload.fromPath = "/blog/old"
    ∧ (createRedirect { fromPath := "/old", toPath := "/new" }
        { prefixPaths := true, pathPrefix := "/blog" }).payload.toPath = "/blog/new" := by
  have h := createRedirect_prepends_path_prefix { fromPath := "/old", toPath := "/new" }
      { prefixPaths := true, pathPrefix := "/blog" } rfl
  exact ⟨h.1.trans (by decide), h.2.trans (by decide)⟩

/-- C9: for every page or layout input that fails schema validation,
`createPage` (respectively `createLayout`) reports the failure with the full
offending payload and returns no event — a no-op result rather than a fatal
error. -/
theorem createPage_createLayout_validation_failure_nonfatal
    (page : PageInput) (layout : LayoutInput) (plugin : Option Plugin)
    (traceId : Option String) (store : StoreState)
    (hp : validatePage (buildInternalPage page store) = false)
    (hl : validateLayout (buildInternalLayout layout store) = false) :
    createPage page plugin traceId store = .reported (buildInternalPage page store)
    ∧ createLayout layout plugin traceId store
        = .reported (buildInternalLayout layout store) := by
  constructor
  · simp [createPage, hp]
  · simp [createLayout, hl]

/-- Witness for C9: a page whose component is empty and a layout whose
component is empty both fail validation and are reported as no-ops carrying
the full offending record. -/
theorem createPage_createLayout_validation_failure_nonfatal_witness :
    createPage { path := "x", component := "" } none none {}
      = .reported (buildInternalPage { path := "x", component := "" } {})
    ∧ createLayout { component := "" } none none {}
      = .reported (buildInternalLayout { component := "" } {}) :=
  createPage_createLayout_validation_failure_nonfatal
    { path := "x", component := "" } { component := "" } none none {}
    (by decide) (by decide)

/-- Looking up a key just written by `setKey` yields the written value. -/
theorem lookupKey_setKey_self {α : Type} (l : List (String × α)) (k : String) (v : α) :
    lookupKey (setKey l k v) k = some v := by
  induction l with
  | nil => simp [setKey, lookupKey]
  | cons hd tl ih =>
    obtain ⟨x, w⟩ := hd
    by_cases h : x = k
    · simp [setKey, h, lookupKey]
    · simp [setKey, h, lookupKey, ih]

/-- Helper: the grant case of `createNodeField` — when the field is unclaimed
or already owned by the calling plugin, the field value and ownership are
written and the mutated node is emitted. -/
theorem createNodeField_grant (node : Node) (fname : String) (v : Option String)
    (p : Plugin) (tid : Option String)
    (hok : ∀ o, lookupKey (node.internal.fieldOwners.getD []) fname = some o →
            o = "" ∨ o = p.name) :
    createNodeField node (some fname) v none none p tid
      = (.event p tid
          { node with
            fields := some (setKey (node.fields.getD []) fname v)
            internal := { node.internal with
              fieldOwners :=
                some (setKey (node.internal.fieldOwners.getD []) fname p.name) } },
          { node with
            fields := some (setKey (node.fields.getD []) fname v)
            internal := { node.internal with
              fieldOwners :=
                some (setKey (node.internal.fieldOwners.getD []) fname p.name) } }) := by
  cases hlo : lookupKey (node.internal.fieldOwners.getD []) fname with
  | none => simp [createNodeField, truthyStr, hlo]
  | some o =>
    rcases hok o hlo with rfl | rfl
    · simp [createNodeField, truthyStr, hlo]
    · simp [createNodeField, truthyStr, hlo]

/-- Helper: the denial case of `createNodeField` — a field owned by a foreign
plugin throws, leaving only the container initialisation on the node. -/
theorem createNodeField_foreign (node : Node) (fname o : String) (w : Option String)
    (q : Plugin) (tid : Option String)
    (hlo : lookupKey (node.internal.fieldOwners.getD []) fname = some o)
    (hne : o ≠ "") (hneq : o ≠ q.name) :
    createNodeField node (some fname) w none none q tid
      = (.fatalFieldOwner o,
         { node with
           fields := some (node.fields.getD [])
           internal := { node.internal with
             fieldOwners := some (node.internal.fieldOwners.getD []) } }) := by
  simp [createNodeField, truthyStr, hlo, hne, hneq]

/-- C5: for every node and field name: `createNodeField` called twice with the
same field name by the same plugin succeeds both times, the second value
replacing the first (last-write-wins), and the field's ownership is recorded
on first successful claim; `createNodeField` on a field already owned by a
different plugin is rejected fatally regardless of the value supplied. -/
theorem createNodeField_same_plugin_lww_foreign_fatal
    (node : Node) (fname : String) (v1 v2 : Option String) (p : Plugin)
    (tid tid2 : Option String)
    (hok : ∀ o, lookupKey (node.internal.fieldOwners.getD []) fname = some o →
            o = "" ∨ o = p.name) :
    ((createNodeField node (some fname) v1 none none p tid).1
        = .event p tid (createNodeField node (some fname) v1 none none p tid).2)
    ∧ (lookupKey ((createNodeField node (some fname) v1 none none p tid).2.fields.getD [])
        fname = some v1)
    ∧ (lookupKey
        ((createNodeField node (some fname) v1 none none p tid).2.internal.fieldOwners.getD [])
        fname = some p.name)
    ∧ ((createNodeField (createNodeField node (some fname) v1 none none p tid).2
          (some fname) v2 none none p tid2).1
        = .event p tid2
            (createNodeField (createNodeField node (some fname) v1 none none p tid).2
              (some fname) v2 none none p tid2).2)
    ∧ (lookupKey
        ((createNodeField (createNodeField node (some fname) v1 none none p tid).2
            (some fname) v2 none none p tid2).2.fields.getD []) fname = some v2)
    ∧ (lookupKey
        ((createNodeField (createNodeField node (some fname) v1 none none p tid).2
            (some fname) v2 none none p tid2).2.internal.fieldOwners.getD [])
          fname = some p.name)
    ∧ (∀ (q : Plugin) (o : String) (w : Option String) (tid3 : Option String),
        lookupKey (node.internal.fieldOwners.getD []) fname = some o → o ≠ "" →
        o ≠ q.name →
        (createNodeField node (some fname) w none none q tid3).1 = .fatalFieldOwner o) := by
  have h1 := createNodeField_grant node fname v1 p tid hok
  have hok2 : ∀ o, lookupKey
      ((createNodeField node (some fname) v1 none none p tid).2.internal.fieldOwners.getD [])
      fname = some o → o = "" ∨ o = p.name := by
    intro o h
    rw [h1] at h
    rw [show (((FieldResult.event p tid
        { node with
          fields := some (setKey (node.fields.getD []) fname v1)
          internal := { node.internal with
            fieldOwners := some (setKey (node.internal.fieldOwners.getD []) fname p.name) } },
        { node with
          fields := some (setKey (node.fields.getD []) fname v1)
          internal := { node.internal with
            fieldOwners := some (setKey (node.internal.fieldOwners.getD []) fname p.name) } })
        : FieldResult × Node).2.internal.fieldOwners.getD [])
      = setKey (node.internal.fieldOwners.getD []) fname p.name from rfl] at h
    rw [lookupKey_setKey_self] at h
    exact Or.inr (Option.some_inj.mp h).symm
  have h2 := createNodeField_grant (createNodeField node (some fname) v1 none none p tid).2
    fname v2 p tid2 hok2
  refine ⟨?_, ?_, ?_, ?_, ?_, ?_, ?_⟩
  · rw [h1]
  · rw [h1]; exact lookupKey_setKey_self _ _ _
  · rw [h1]; exact lookupKey_setKey_self _ _ _
  · rw [h2]
  · rw [h2]; exact lookupKey_setKey_self _ _ _
  · rw [h2]; exact lookupKey_setKey_self _ _ _
  · intro q o w tid3 hlo hne hneq
    rw [createNodeField_foreign node fname o w q tid3 hlo hne hneq]

/-- A fresh node with no claimed fields (C5 witness fixture). -/
def wNodeC5 : Node := { id := "n1" }

/-- A node whose field `happiness` is owned by plugin `P` (C5 witness
fixture). -/
def wOwnedC5 : Node :=
  { id := "n1", internal := { fieldOwners := some [("happiness", "P")] } }

/-- Witness for C5: an unclaimed field is written twice by plugin `P`
(values `a` then `b`), and a field owned by `P` is rejected for plugin
`Q`. -/
theorem createNodeField_same_plugin_lww_foreign_fatal_witness :
    ((createNodeField wNodeC5 (some "happiness") (some "a") none none ⟨"P"⟩ none).1
        = .event ⟨"P"⟩ none
            (createNodeField wNodeC5 (some "happiness") (some "a") none none ⟨"P"⟩ none).2)
    ∧ (lookupKey ((createNodeField wNodeC5 (some "happiness") (some "a") none none
          ⟨"P"⟩ none).2.fields.getD []) "happiness" = some (some "a"))
    ∧ (lookupKey ((createNodeField
          (createNodeField wNodeC5 (some "happiness") (some "a") none none ⟨"P"⟩ none).2
          (some "happiness") (some "b") none none ⟨"P"⟩ none).2.fields.getD [])
        "happiness" = some (some "b"))
    ∧ ((createNodeField wOwnedC5 (some "happiness") (some "z") none none ⟨"Q"⟩ none).1
        = .fatalFieldOwner "P") := by
  have h := createNodeField_same_plugin_lww_foreign_fatal wNodeC5 "happiness"
      (some "a") (some "b") ⟨"P"⟩ none none
      (by intro o ho; simp [wNodeC5, lookupKey] at ho)
  have h2 := createNodeField_same_plugin_lww_foreign_fatal wOwnedC5 "happiness"
      (some "z") (some "z") ⟨"P"⟩ none none
      (by intro o ho; simp [wOwnedC5, lookupKey] at ho; exact Or.inr ho.symm)
  exact ⟨h.1, h.2.1, h.2.2.2.2.1,
    h2.2.2.2.2.2.2 ⟨"Q"⟩ "P" (some "z") none (by decide) (by decide) (by decide)⟩

theorem truthyStr_none : truthyStr none = false := rfl

theorem truthyStr_some_true {s : String} (h : s ≠ "") : truthyStr (some s) = true := by
  simp [truthyStr, h]

theorem truthyStr_some_false : truthyStr (some "") = false := rfl

theorem stampNode_fields (node : Node) (plugin : Option Plugin) :
    (stampNode node plugin).fields = node.fields := by
  cases plugin <;> rfl

theorem stampNode_type (node : Node) (plugin : Option Plugin) :
    (stampNode node plugin).internal.type = node.internal.type := by
  cases plugin <;> rfl

theorem stampNode_contentDigest (node : Node) (plugin : Option Plugin) :
    (stampNode node plugin).internal.contentDigest = node.internal.contentDigest := by
  cases plugin <;> rfl

theorem stampNode_owner_some (node : Node) (p : Plugin) :
    (stampNode node (some p)).internal.owner = some p.name := rfl

theorem stampNode_id_some (node : Node) (p : Plugin) :
    (stampNode node (some p)).id = createUuid node.id p.name := rfl

theorem lookupKey_setKey_of_ne {α : Type} (l : List (String × α)) (k k2 : String)
    (v : α) (h : k2 ≠ k) : lookupKey (setKey l k v) k2 = lookupKey l k2 := by
  induction l with
  | nil => simp [setKey, lookupKey, Ne.symm h]
  | cons hd tl ih =>
    obtain ⟨x, w⟩ := hd
    by_cases hx : x = k
    · subst hx
      simp [setKey, lookupKey, Ne.symm h]
    · simp [setKey, hx, lookupKey, ih]

-- branch helper: type claim written (unclaimed or empty-owner type), result
-- is node-owner fatal or an emitted event, always with the claimed table
theorem createNode_plugin_claims (node : Node) (p : Plugin) (tid : Option String)
    (st : ActionState)
    (h0 : node.internal.owner = none)
    (hv : validateNode (stampNode node (some p)) = true)
    (hf : node.fields = none)
    (hcur : truthyStr (lookupKey st.typeOwners ((node.internal.type).getD "undefined"))
      = false) :
    (createNode node (some p) tid st).2.2
      = { st with typeOwners :=
            setKey st.typeOwners ((node.internal.type).getD "undefined") p.name } := by
  simp only [createNode, h0, truthyStr_none, hv, hf, stampNode_fields, stampNode_type,
    hcur, Bool.false_eq_true, not_false_eq_true, not_true_eq_false, if_true, if_false,
    ite_true, ite_false, Option.isSome_none]
  cases hold : getNode st.nodes (stampNode node (some p)).id with
  | none => simp
  | some old =>
    by_cases how : old.internal.owner = some p.name
    · simp only [how, ite_true, if_true]
      split
      · simp_all
      · split <;> simp_all
    · simp [how]

-- branch helper: type already owned by the calling plugin — table untouched,
-- never a type-ownership rejection
theorem createNode_plugin_type_owned (node : Node) (p : Plugin) (tid : Option String)
    (st : ActionState)
    (h0 : node.internal.owner = none)
    (hv : validateNode (stampNode node (some p)) = true)
    (hf : node.fields = none)
    (hcur : lookupKey st.typeOwners ((node.internal.type).getD "undefined") = some p.name)
    (hpn : p.name ≠ "") :
    (createNode node (some p) tid st).2.2 = st
    ∧ ∀ q, (createNode node (some p) tid st).1 ≠ .fatalTypeOwner q := by
  have htr : truthyStr (lookupKey st.typeOwners ((node.internal.type).getD "undefined"))
      = true := by rw [hcur]; exact truthyStr_some_true hpn
  simp only [createNode, h0, truthyStr_none, hv, hf, stampNode_fields, stampNode_type,
    hcur, truthyStr_some_true hpn, Bool.false_eq_true, not_false_eq_true,
    not_true_eq_false, if_true, if_false, ite_true, ite_false, Option.isSome_none,
    Bool.true_eq_false, ne_eq, not_true, ite_self]
  cases hold : getNode st.nodes (stampNode node (some p)).id with
  | none => simp
  | some old =>
    by_cases how : old.internal.owner = some p.name
    · simp only [how, ite_true, if_true]
      constructor
      · split <;> simp_all
        split <;> simp_all
      · intro q
        split <;> simp_all
        split <;> simp_all
    · simp [how]

-- branch helper: type owned by a foreign plugin — fatal, state unchanged
theorem createNode_plugin_type_denied (node : Node) (p : Plugin) (tid : Option String)
    (st : ActionState) (q : String)
    (h0 : node.internal.owner = none)
    (hv : validateNode (stampNode node (some p)) = true)
    (hf : node.fields = none)
    (hcur : lookupKey st.typeOwners ((node.internal.type).getD "undefined") = some q)
    (hq : q ≠ "") (hqp : q ≠ p.name) :
    createNode node (some p) tid st = (.fatalTypeOwner q, stampNode node (some p), st) := by
  have htr : truthyStr (lookupKey st.typeOwners ((node.internal.type).getD "undefined"))
      = true := by rw [hcur]; exact truthyStr_some_true hq
  simp only [createNode, h0, truthyStr_none, hv, hf, stampNode_fields, stampNode_type,
    hcur, truthyStr_some_true hq, Bool.false_eq_true, not_false_eq_true,
    not_true_eq_false, if_true, if_false, ite_true, ite_false, Option.isSome_none,
    Bool.true_eq_false]
  simp [Option.some_inj, hqp]

/-- C2: for every type tag `t`: the first plugin to create a node of type `t`
is permanently recorded as `t`'s owner (the claim is written even when a later
check fails); a later `createNode` of type `t` by the same plugin is granted
(idempotent, never a type-ownership rejection, table unchanged); and a later
`createNode` of type `t` by a different plugin is rejected fatally naming the
existing owner, even for unrelated node ids; an existing (non-empty) claim of
any type is never changed by any `createNode` call. -/
theorem createNode_type_ownership_first_come_first_served
    (node : Node) (p : Plugin) (tid : Option String) (st : ActionState) (t : String)
    (h0 : node.internal.owner = none)
    (ht : node.internal.type = some t)
    (hv : validateNode (stampNode node (some p)) = true)
    (hf : node.fields = none)
    (hpn : p.name ≠ "") :
    (lookupKey st.typeOwners t = none →
        lookupKey (createNode node (some p) tid st).2.2.typeOwners t = some p.name)
    ∧ (lookupKey st.typeOwners t = some p.name →
        ((∀ q, (createNode node (some p) tid st).1 ≠ .fatalTypeOwner q)
          ∧ (createNode node (some p) tid st).2.2 = st))
    ∧ (∀ q, lookupKey st.typeOwners t = some q → q ≠ "" → q ≠ p.name →
        (createNode node (some p) tid st).1 = .fatalTypeOwner q
          ∧ (createNode node (some p) tid st).2.2 = st)
    ∧ (∀ t2 q2, lookupKey st.typeOwners t2 = some q2 → q2 ≠ "" →
        lookupKey (createNode node (some p) tid st).2.2.typeOwners t2 = some q2) := by
  have hkey : (node.internal.type).getD "undefined" = t := by rw [ht]; rfl
  refine ⟨?_, ?_, ?_, ?_⟩
  · intro hcur
    have hc : truthyStr (lookupKey st.typeOwners ((node.internal.type).getD "undefined"))
        = false := by rw [hkey, hcur]; rfl
    rw [createNode_plugin_claims node p tid st h0 hv hf hc, hkey]
    exact lookupKey_setKey_self _ _ _
  · intro hcur
    have hc : lookupKey st.typeOwners ((node.internal.type).getD "undefined")
        = some p.name := by rw [hkey]; exact hcur
    have h := createNode_plugin_type_owned node p tid st h0 hv hf hc hpn
    exact ⟨h.2, h.1⟩
  · intro q hcur hq hqp
    have hc : lookupKey st.typeOwners ((node.internal.type).getD "undefined")
        = some q := by rw [hkey]; exact hcur
    rw [createNode_plugin_type_denied node p tid st q h0 hv hf hc hq hqp]
    exact ⟨rfl, rfl⟩
  · intro t2 q2 hl2 hq2
    cases hcase : lookupKey st.typeOwners t with
    | none =>
      have hc : truthyStr (lookupKey st.typeOwners ((node.internal.type).getD "undefined"))
          = false := by rw [hkey, hcase]; rfl
      rw [createNode_plugin_claims node p tid st h0 hv hf hc, hkey]
      by_cases ht2 : t2 = t
      · subst ht2
        rw [hcase] at hl2
        cases hl2
      · rw [lookupKey_setKey_of_ne _ _ _ _ ht2]
        exact hl2
    | some q =>
      by_cases hq : q = ""
      · subst hq
        have hc : truthyStr (lookupKey st.typeOwners ((node.internal.type).getD "undefined"))
            = false := by rw [hkey, hcase]; rfl
        rw [createNode_plugin_claims node p tid st h0 hv hf hc, hkey]
        by_cases ht2 : t2 = t
        · subst ht2
          rw [hcase] at hl2
          exact absurd (Option.some_inj.mp hl2).symm hq2
        · rw [lookupKey_setKey_of_ne _ _ _ _ ht2]
          exact hl2
      · by_cases hqp : q = p.name
        · have hc : lookupKey st.typeOwners ((node.internal.type).getD "undefined")
              = some p.name := by rw [hkey, hcase, hqp]
          rw [(createNode_plugin_type_owned node p tid st h0 hv hf hc hpn).1]
          exact hl2
        · have hc : lookupKey st.typeOwners ((node.internal.type).getD "undefined")
              = some q := by rw [hkey]; exact hcase
          rw [createNode_plugin_type_denied node p tid st q h0 hv hf hc hq hqp]
          exact hl2

-- helper: when every check passes, createNode reaches the change-detection
-- decision and emits touch-or-create accordingly
theorem createNode_emits (node : Node) (plugin : Option Plugin) (tid : Option String)
    (st : ActionState)
    (h0 : node.internal.owner = none)
    (hv : validateNode (stampNode node plugin) = true)
    (hf : node.fields = none)
    (hty : ∀ p, plugin = some p →
        truthyStr (lookupKey st.typeOwners ((node.internal.type).getD "undefined")) = false
        ∨ (lookupKey st.typeOwners ((node.internal.type).getD "undefined") = some p.name
            ∧ p.name ≠ ""))
    (hown : ∀ p old, plugin = some p →
        getNode st.nodes (stampNode node plugin).id = some old →
        old.internal.owner = some p.name) :
    (createNode node plugin tid st).1
      = if (getNode st.nodes (stampNode node plugin).id).isSome
            ∧ ¬ hasNodeChanged st.nodes (stampNode node plugin).id
                (stampNode node plugin).internal.contentDigest
        then .event (.touchNode plugin tid (stampNode node plugin).id)
        else .event (.createNode plugin tid (stampNode node plugin)) := by
  cases plugin with
  | none =>
    simp only [createNode, h0, truthyStr_none, hv, hf, stampNode_fields, stampNode_type,
      Bool.false_eq_true, not_false_eq_true, not_true_eq_false, if_true, if_false,
      ite_true, ite_false, Option.isSome_none]
    split <;> rfl
  | some p =>
    rcases hty p rfl with hc | ⟨hc, hpn⟩
    · simp only [createNode, h0, truthyStr_none, hv, hf, stampNode_fields, stampNode_type,
        hc, Bool.false_eq_true, not_false_eq_true, not_true_eq_false, if_true, if_false,
        ite_true, ite_false, Option.isSome_none]
      cases hold : getNode st.nodes (stampNode node (some p)).id with
      | none => simp [hold]
      | some old =>
        have how := hown p old rfl hold
        simp only [hold, how, Option.isSome_some, true_and, ite_true, if_true,
          reduceIte]
        split
        · simp_all
        · split <;> rfl
    · simp only [createNode, h0, truthyStr_none, hv, hf, stampNode_fields, stampNode_type,
        hc, truthyStr_some_true hpn, Bool.false_eq_true, not_false_eq_true,
        not_true_eq_false, if_true, if_false, ite_true, ite_false, Option.isSome_none,
        Bool.true_eq_false]
      cases hold : getNode st.nodes (stampNode node (some p)).id with
      | none => simp [hold]
      | some old =>
        have how := hown p old rfl hold
        simp only [hold, how, Option.isSome_some, true_and, ite_true, if_true,
          reduceIte]
        split
        · simp_all
        · split <;> rfl

/-- C3: for every node input that passes `createNode`'s validation and
ownership checks: if a stored node with the same (derived) id exists and the
incoming `contentDigest` is unchanged, `createNode` returns a `TOUCH_NODE`
event (never a create event); if no stored node exists, or one exists with a
different digest, `createNode` returns a `CREATE_NODE` event carrying the node
as payload. -/
theorem createNode_touch_vs_create
    (node : Node) (plugin : Option Plugin) (tid : Option String) (st : ActionState)
    (h0 : node.internal.owner = none)
    (hv : validateNode (stampNode node plugin) = true)
    (hf : node.fields = none)
    (hty : ∀ p, plugin = some p →
        truthyStr (lookupKey st.typeOwners ((node.internal.type).getD "undefined")) = false
        ∨ (lookupKey st.typeOwners ((node.internal.type).getD "undefined") = some p.name
            ∧ p.name ≠ ""))
    (hown : ∀ p old, plugin = some p →
        getNode st.nodes (stampNode node plugin).id = some old →
        old.internal.owner = some p.name) :
    (∀ old, getNode st.nodes (stampNode node plugin).id = some old →
        old.internal.contentDigest = node.internal.contentDigest →
        (createNode node plugin tid st).1
          = .event (.touchNode plugin tid (stampNode node plugin).id))
    ∧ (getNode st.nodes (stampNode node plugin).id = none →
        (createNode node plugin tid st).1
          = .event (.createNode plugin tid (stampNode node plugin)))
    ∧ (∀ old, getNode st.nodes (stampNode node plugin).id = some old →
        old.internal.contentDigest ≠ node.internal.contentDigest →
        (createNode node plugin tid st).1
          = .event (.createNode plugin tid (stampNode node plugin))) := by
  rw [createNode_emits node plugin tid st h0 hv hf hty hown]
  refine ⟨?_, ?_, ?_⟩
  · intro old hold heq
    have hnc : hasNodeChanged st.nodes (stampNode node plugin).id
        (stampNode node plugin).internal.contentDigest = false := by
      simp [hasNodeChanged, hold, stampNode_contentDigest, heq]
    simp [hold, hnc]
  · intro hold
    simp [hold]
  · intro old hold hne
    have hnc : hasNodeChanged st.nodes (stampNode node plugin).id
        (stampNode node plugin).internal.contentDigest = true := by
      simp [hasNodeChanged, hold, stampNode_contentDigest, hne]
    simp [hnc]

theorem stampNode_none (node : Node) : stampNode node none = node := rfl

/-- C1 (amended): a node, once created by plugin `P`, can only be re-created
or updated through `createNode` by `P`: a `createNode` on node `n` invoked
with a plugin other than the recorded `internal.owner` is rejected fatally,
and whenever an event is emitted for an existing node the stamped owner equals
the recorded owner, so at most one plugin is ever recorded as
`internal.owner` of `n`.  (`touchNode`, by contrast, performs no ownership
check — see the counterexample.) -/
theorem createNode_foreign_owner_fatal
    (node : Node) (p : Plugin) (tid : Option String) (st : ActionState) (old : Node)
    (h0 : node.internal.owner = none)
    (hv : validateNode (stampNode node (some p)) = true)
    (hf : node.fields = none)
    (hty : truthyStr (lookupKey st.typeOwners ((node.internal.type).getD "undefined")) = false
        ∨ (lookupKey st.typeOwners ((node.internal.type).getD "undefined") = some p.name
            ∧ p.name ≠ ""))
    (hold : getNode st.nodes (stampNode node (some p)).id = some old) :
    (old.internal.owner ≠ some p.name →
        (createNode node (some p) tid st).1 = .fatalNodeOwner old.internal.owner)
    ∧ (∀ e, (createNode node (some p) tid st).1 = .event e →
        (createNode node (some p) tid st).2.1.internal.owner = old.internal.owner) := by
  have hfatal : old.internal.owner ≠ some p.name →
      (createNode node (some p) tid st).1 = .fatalNodeOwner old.internal.owner := by
    intro hne
    rcases hty with hc | ⟨hc, hpn⟩
    · simp only [createNode, h0, truthyStr_none, hv, hf, stampNode_fields, stampNode_type,
        hc, Bool.false_eq_true, not_false_eq_true, not_true_eq_false, if_true, if_false,
        ite_true, ite_false, Option.isSome_none, hold]
      simp [hne]
    · simp only [createNode, h0, truthyStr_none, hv, hf, stampNode_fields, stampNode_type,
        hc, truthyStr_some_true hpn, Bool.false_eq_true, not_false_eq_true,
        not_true_eq_false, if_true, if_false, ite_true, ite_false, Option.isSome_none,
        Bool.true_eq_false, hold]
      simp [hne]
  have hemit : old.internal.owner = some p.name →
      (createNode node (some p) tid st).2.1 = stampNode node (some p) := by
    intro how
    rcases hty with hc | ⟨hc, hpn⟩
    · simp only [createNode, h0, truthyStr_none, hv, hf, stampNode_fields, stampNode_type,
        hc, Bool.false_eq_true, not_false_eq_true, not_true_eq_false, if_true, if_false,
        ite_true, ite_false, Option.isSome_none, hold, how]
      split
      · simp_all
      · split <;> rfl
    · simp only [createNode, h0, truthyStr_none, hv, hf, stampNode_fields, stampNode_type,
        hc, truthyStr_some_true hpn, Bool.false_eq_true, not_false_eq_true,
        not_true_eq_false, if_true, if_false, ite_true, ite_false, Option.isSome_none,
        Bool.true_eq_false, hold, how]
      split
      · simp_all
      · split <;> rfl
  refine ⟨hfatal, ?_⟩
  intro e he
  by_cases how : old.internal.owner = some p.name
  · rw [hemit how, stampNode_owner_some, how]
  · rw [hfatal how] at he
    simp at he

/-- C10: for every node submitted to `createNode` without a plugin identity,
no type-ownership or node-owner check is performed and no ownership error is
raised — even if the node's type is already owned by some plugin or an
existing node with the same id has a recorded owner — and the node's id is
left as requested with no `internal.owner` recorded (the node and the state
are returned unchanged, and the result is an event). -/
theorem createNode_without_plugin_no_checks
    (node : Node) (tid : Option String) (st : ActionState)
    (h0 : node.internal.owner = none)
    (hv : validateNode node = true)
    (hf : node.fields = none) :
    ((createNode node none tid st).1 = .event (.touchNode none tid node.id)
      ∨ (createNode node none tid st).1 = .event (.createNode none tid node))
    ∧ (createNode node none tid st).2.1 = node
    ∧ (createNode node none tid st).2.2 = st := by
  have hv2 : validateNode (stampNode node none) = true := hv
  simp only [createNode, h0, truthyStr_none, hv2, hv, hf, stampNode_fields, stampNode_none,
    Bool.false_eq_true, not_false_eq_true, not_true_eq_false, if_true, if_false,
    ite_true, ite_false, Option.isSome_none]
  refine ⟨?_, ?_, ?_⟩
  · split
    · exact Or.inl rfl
    · exact Or.inr rfl
  · split <;> rfl
  · split <;> rfl

-- helper: exhaustive enumeration of createNode's possible results, mutated
-- nodes, and states
theorem createNode_cases (node : Node) (plugin : Option Plugin) (tid : Option String)
    (st : ActionState) :
    (createNode node plugin tid st = (.fatalOwnerSet, node, st))
    ∨ (createNode node plugin tid st = (.validationError, stampNode node plugin, st))
    ∨ (createNode node plugin tid st = (.fatalFields, stampNode node plugin, st))
    ∨ (∃ o, createNode node plugin tid st = (.fatalTypeOwner o, stampNode node plugin, st))
    ∨ (∃ o st2, (st2 = st ∨ ∃ p, plugin = some p ∧
          st2 = { st with typeOwners :=
                    setKey st.typeOwners ((node.internal.type).getD "undefined") p.name })
        ∧ createNode node plugin tid st = (.fatalNodeOwner o, stampNode node plugin, st2))
    ∨ (∃ st2, (st2 = st ∨ ∃ p, plugin = some p ∧
          st2 = { st with typeOwners :=
                    setKey st.typeOwners ((node.internal.type).getD "undefined") p.name })
        ∧ (createNode node plugin tid st
              = (.event (.touchNode plugin tid (stampNode node plugin).id),
                 stampNode node plugin, st2)
            ∨ createNode node plugin tid st
              = (.event (.createNode plugin tid (stampNode node plugin)),
                 stampNode node plugin, st2))) := by
  by_cases h0 : truthyStr node.internal.owner = true
  · exact Or.inl (by simp [createNode, h0])
  · rw [Bool.not_eq_true] at h0
    by_cases hv : validateNode (stampNode node plugin) = true
    · by_cases hf : node.fields.isSome = true
      · exact Or.inr (Or.inr (Or.inl
          (by simp [createNode, h0, hv, hf, stampNode_fields])))
      · rw [Bool.not_eq_true] at hf
        cases plugin with
        | none =>
          refine Or.inr (Or.inr (Or.inr (Or.inr (Or.inr ⟨st, Or.inl rfl, ?_⟩))))
          have hv2 : validateNode node = true := hv
          simp only [createNode, h0, hv, hv2, hf, stampNode_fields, stampNode_none,
            Bool.false_eq_true, not_false_eq_true, not_true_eq_false, if_true, if_false,
            ite_true, ite_false]
          split
          · exact Or.inl rfl
          · exact Or.inr rfl
        | some p =>
          by_cases hcur : truthyStr (lookupKey st.typeOwners
              ((node.internal.type).getD "undefined")) = true
          · by_cases hqp : lookupKey st.typeOwners
                ((node.internal.type).getD "undefined") = some p.name
            · have hpn : p.name ≠ "" := by
                rw [hqp] at hcur
                simpa [truthyStr] using hcur
              cases hold : getNode st.nodes (stampNode node (some p)).id with
              | none =>
                refine Or.inr (Or.inr (Or.inr (Or.inr (Or.inr ⟨st, Or.inl rfl, ?_⟩))))
                simp only [createNode, h0, hv, hf, stampNode_fields, stampNode_type,
                  hqp, truthyStr_some_true hpn, Bool.false_eq_true, Bool.true_eq_false,
                  not_false_eq_true, not_true_eq_false, if_true, if_false, ite_true,
                  ite_false, hold]
                simp [hold]
              | some old =>
                by_cases how : old.internal.owner = some p.name
                · refine Or.inr (Or.inr (Or.inr (Or.inr (Or.inr ⟨st, Or.inl rfl, ?_⟩))))
                  simp only [createNode, h0, hv, hf, stampNode_fields, stampNode_type,
                    hqp, truthyStr_some_true hpn, Bool.false_eq_true, Bool.true_eq_false,
                    not_false_eq_true, not_true_eq_false, if_true, if_false, ite_true,
                    ite_false, hold, how]
                  simp only [hold, Option.isSome_some, true_and, reduceIte]
                  split
                  · simp_all
                  · split
                    · exact Or.inl (by simp_all)
                    · exact Or.inr (by simp_all)
                · refine Or.inr (Or.inr (Or.inr (Or.inr (Or.inl
                    ⟨old.internal.owner, st, Or.inl rfl, ?_⟩))))
                  simp only [createNode, h0, hv, hf, stampNode_fields, stampNode_type,
                    hqp, truthyStr_some_true hpn, Bool.false_eq_true, Bool.true_eq_false,
                    not_false_eq_true, not_true_eq_false, if_true, if_false, ite_true,
                    ite_false, hold]
                  simp [how]
            · cases hq : lookupKey st.typeOwners ((node.internal.type).getD "undefined") with
              | none => rw [hq] at hcur; simp [truthyStr] at hcur
              | some q =>
                have hqe : q ≠ "" := by
                  rw [hq] at hcur
                  simpa [truthyStr] using hcur
                have hqp2 : q ≠ p.name := fun h => hqp (by rw [hq, h])
                refine Or.inr (Or.inr (Or.inr (Or.inl ⟨q, ?_⟩)))
                simp only [createNode, h0, hv, hf, stampNode_fields, stampNode_type,
                  hq, truthyStr_some_true hqe, Bool.false_eq_true, Bool.true_eq_false,
                  not_false_eq_true, not_true_eq_false, if_true, if_false, ite_true,
                  ite_false]
                simp [Option.some_inj, hqp2]
          · rw [Bool.not_eq_true] at hcur
            cases hold : getNode st.nodes (stampNode node (some p)).id with
            | none =>
              refine Or.inr (Or.inr (Or.inr (Or.inr (Or.inr
                ⟨_, Or.inr ⟨p, rfl, rfl⟩, ?_⟩))))
              simp only [createNode, h0, hv, hf, stampNode_fields, stampNode_type,
                hcur, Bool.false_eq_true, not_false_eq_true, not_true_eq_false,
                if_true, if_false, ite_true, ite_false, hold]
              simp [hold]
            | some old =>
              by_cases how : old.internal.owner = some p.name
              · refine Or.inr (Or.inr (Or.inr (Or.inr (Or.inr
                  ⟨_, Or.inr ⟨p, rfl, rfl⟩, ?_⟩))))
                simp only [createNode, h0, hv, hf, stampNode_fields, stampNode_type,
                  hcur, Bool.false_eq_true, not_false_eq_true, not_true_eq_false,
                  if_true, if_false, ite_true, ite_false, hold, how]
                simp only [hold, Option.isSome_some, true_and, reduceIte]
                split
                · simp_all
                · split
                  · exact Or.inl (by simp_all)
                  · exact Or.inr (by simp_all)
              · refine Or.inr (Or.inr (Or.inr (Or.inr (Or.inl
                  ⟨old.internal.owner, _, Or.inr ⟨p, rfl, rfl⟩, ?_⟩))))
                simp only [createNode, h0, hv, hf, stampNode_fields, stampNode_type,
                  hcur, Bool.false_eq_true, not_false_eq_true, not_true_eq_false,
                  if_true, if_false, ite_true, ite_false, hold]
                simp [how]
    · rw [Bool.not_eq_true] at hv
      exact Or.inr (Or.inl (by simp [createNode, h0, hv]))

/-- C4 (amended): for `createNode`, either the checks pass and exactly one
well-formed event (`CREATE_NODE` carrying the processed node, or `TOUCH_NODE`
carrying its id) is produced, or a failure marker is returned and no event is
emitted; the node store is never modified by the action itself, but the
failure path may leave partial modifications: the caller-supplied node record
may already have been stamped (owner set, id derived, both before validation),
and the type-ownership table may retain a claim recorded before the
node-owner check failed. -/
theorem createNode_failure_modes_and_partiality
    (node : Node) (plugin : Option Plugin) (tid : Option String) (st : ActionState) :
    ((createNode node plugin tid st).2.2.nodes = st.nodes)
    ∧ ((createNode node plugin tid st).2.1 = node
        ∨ (createNode node plugin tid st).2.1 = stampNode node plugin)
    ∧ ((createNode node plugin tid st).2.2.typeOwners = st.typeOwners
        ∨ ∃ p, plugin = some p ∧ (createNode node plugin tid st).2.2.typeOwners
            = setKey st.typeOwners ((node.internal.type).getD "undefined") p.name)
    ∧ ((createNode node plugin tid st).1
          = .event (.createNode plugin tid (createNode node plugin tid st).2.1)
        ∨ (createNode node plugin tid st).1
          = .event (.touchNode plugin tid (createNode node plugin tid st).2.1.id)
        ∨ (createNode node plugin tid st).1 = .validationError
        ∨ (createNode node plugin tid st).1 = .fatalOwnerSet
        ∨ (createNode node plugin tid st).1 = .fatalFields
        ∨ (∃ o, (createNode node plugin tid st).1 = .fatalTypeOwner o)
        ∨ (∃ o, (createNode node plugin tid st).1 = .fatalNodeOwner o)) := by
  rcases createNode_cases node plugin tid st with
    h | h | h | ⟨o, h⟩ | ⟨o, st2, hst2, h⟩ | ⟨st2, hst2, h | h⟩
  · rw [h]
    exact ⟨rfl, Or.inl rfl, Or.inl rfl, Or.inr (Or.inr (Or.inr (Or.inl rfl)))⟩
  · rw [h]
    exact ⟨rfl, Or.inr rfl, Or.inl rfl, Or.inr (Or.inr (Or.inl rfl))⟩
  · rw [h]
    exact ⟨rfl, Or.inr rfl, Or.inl rfl,
      Or.inr (Or.inr (Or.inr (Or.inr (Or.inl rfl))))⟩
  · rw [h]
    exact ⟨rfl, Or.inr rfl, Or.inl rfl,
      Or.inr (Or.inr (Or.inr (Or.inr (Or.inr (Or.inl ⟨o, rfl⟩)))))⟩
  · rw [h]
    refine ⟨?_, Or.inr rfl, ?_,
      Or.inr (Or.inr (Or.inr (Or.inr (Or.inr (Or.inr ⟨o, rfl⟩)))))⟩
    · rcases hst2 with rfl | ⟨p, hp, rfl⟩ <;> rfl
    · rcases hst2 with rfl | ⟨p, hp, rfl⟩
      · exact Or.inl rfl
      · exact Or.inr ⟨p, hp, rfl⟩
  · rw [h]
    refine ⟨?_, Or.inr rfl, ?_, Or.inr (Or.inl rfl)⟩
    · rcases hst2 with rfl | ⟨p, hp, rfl⟩ <;> rfl
    · rcases hst2 with rfl | ⟨p, hp, rfl⟩
      · exact Or.inl rfl
      · exact Or.inr ⟨p, hp, rfl⟩
  · rw [h]
    refine ⟨?_, Or.inr rfl, ?_, Or.inl rfl⟩
    · rcases hst2 with rfl | ⟨p, hp, rfl⟩ <;> rfl
    · rcases hst2 with rfl | ⟨p, hp, rfl⟩
      · exact Or.inl rfl
      · exact Or.inr ⟨p, hp, rfl⟩

/-- A well-formed node input requesting id `n` of type `T` with digest `d`
(shared witness fixture). -/
def wNode : Node := { id := "n", internal := { type := some "T", contentDigest := some "d" } }

/-- A state whose stored node `P/n` is owned by plugin `Q` while type `T` is
unclaimed (C4 counterexample and C1 witness fixture). -/
def wStateOwnedQ : ActionState :=
  { nodes := [("P/n",
      { id := "P/n"
        internal := { type := some "T", contentDigest := some "d", owner := some "Q" } })]
    typeOwners := [] }

/-- Counterexample to C4 as stated: a `createNode` that fails the node-owner
check (throwing, with no event) has nevertheless already mutated the
caller-supplied node record (owner stamped to `P`, id derived) and the
type-ownership table (claim for `T` recorded). -/
theorem createNode_partial_mutation_on_failure_counterexample :
    (createNode wNode (some ⟨"P"⟩) none wStateOwnedQ).1 = .fatalNodeOwner (some "Q")
    ∧ (createNode wNode (some ⟨"P"⟩) none wStateOwnedQ).2.1 ≠ wNode
    ∧ (createNode wNode (some ⟨"P"⟩) none wStateOwnedQ).2.2 ≠ wStateOwnedQ
    ∧ (createNode wNode (some ⟨"P"⟩) none wStateOwnedQ).2.1.internal.owner = some "P"
    ∧ (createNode wNode (some ⟨"P"⟩) none wStateOwnedQ).2.2.typeOwners = [("T", "P")] := by
  decide

/-- A state whose stored node `n` is owned by plugin `P` (C1 counterexample
fixture). -/
def wStateTouch : ActionState :=
  { nodes := [("n",
      { id := "n"
        internal := { type := some "T", contentDigest := some "d", owner := some "P" } })]
    typeOwners := [("T", "P")] }

/-- Counterexample to C1 as stated: node `n` is recorded as owned by plugin
`P`, yet `touchNode` invoked by the different plugin `Q` emits a `TOUCH_NODE`
event instead of being rejected fatally — `touchNode` performs no ownership
check at all. -/
theorem touchNode_no_ownership_check_counterexample :
    ((getNode wStateTouch.nodes "n").map (fun n => n.internal.owner) = some (some "P"))
    ∧ Plugin.mk "Q" ≠ Plugin.mk "P"
    ∧ touchNode "n" (some ⟨"Q"⟩) = .touchNode (some ⟨"Q"⟩) none "n" := by
  decide

/-- Witness for C1 (amended): plugin `P` re-creating a node owned by `Q` is
rejected fatally naming `Q`. -/
theorem createNode_foreign_owner_fatal_witness :
    (createNode wNode (some ⟨"P"⟩) none wStateOwnedQ).1 = .fatalNodeOwner (some "Q") := by
  have h := createNode_foreign_owner_fatal wNode ⟨"P"⟩ none wStateOwnedQ
      { id := "P/n"
        internal := { type := some "T", contentDigest := some "d", owner := some "Q" } }
      rfl (by decide) rfl (Or.inl (by decide)) (by decide)
  exact h.1 (by decide)

/-- Witness for C2: plugin `P` claims the unclaimed type `T`, and plugin `P`
is rejected on a type `T` owned by `Q`. -/
theorem createNode_type_ownership_first_come_first_served_witness :
    (lookupKey (createNode wNode (some ⟨"P"⟩) none {}).2.2.typeOwners "T" = some "P")
    ∧ ((createNode wNode (some ⟨"P"⟩) none { typeOwners := [("T", "Q")] }).1
        = .fatalTypeOwner "Q") := by
  have h1 := createNode_type_ownership_first_come_first_served wNode ⟨"P"⟩ none {} "T"
      rfl rfl (by decide) rfl (by decide)
  have h2 := createNode_type_ownership_first_come_first_served wNode ⟨"P"⟩ none
      { typeOwners := [("T", "Q")] } "T" rfl rfl (by decide) rfl (by decide)
  exact ⟨h1.1 rfl, (h2.2.2.1 "Q" rfl (by decide) (by decide)).1⟩

/-- A state storing node `P/n` owned by `P` with digest `d` (unchanged) and
type `T` claimed by `P` (C3 witness fixture, touch case). -/
def wStateSameDigest : ActionState :=
  { nodes := [("P/n",
      { id := "P/n"
        internal := { type := some "T", contentDigest := some "d", owner := some "P" } })]
    typeOwners := [("T", "P")] }

/-- Like `wStateSameDigest` but with stored digest `e` (changed) (C3 witness
fixture, create case). -/
def wStateNewDigest : ActionState :=
  { nodes := [("P/n",
      { id := "P/n"
        internal := { type := some "T", contentDigest := some "e", owner := some "P" } })]
    typeOwners := [("T", "P")] }

/-- Witness for C3: re-submitting node `n` with its stored digest `d` yields
a touch event; submitting when the stored digest is `e` yields a create
event. -/
theorem createNode_touch_vs_create_witness :
    ((createNode wNode (some ⟨"P"⟩) none wStateSameDigest).1
        = .event (.touchNode (some ⟨"P"⟩) none (stampNode wNode (some ⟨"P"⟩)).id))
    ∧ ((createNode wNode (some ⟨"P"⟩) none wStateNewDigest).1
        = .event (.createNode (some ⟨"P"⟩) none (stampNode wNode (some ⟨"P"⟩)))) := by
  have h1 := createNode_touch_vs_create wNode (some ⟨"P"⟩) none wStateSameDigest
      rfl (by decide) rfl
      (by intro p hp
          injection hp with hp1
          subst hp1
          exact Or.inr ⟨by decide, by decide⟩)
      (by intro p old hp hold
          injection hp with hp1
          subst hp1
          simp [wStateSameDigest, getNode, lookupKey, stampNode, createUuid] at hold
          rw [← hold.2])
  have h2 := createNode_touch_vs_create wNode (some ⟨"P"⟩) none wStateNewDigest
      rfl (by decide) rfl
      (by intro p hp
          injection hp with hp1
          subst hp1
          exact Or.inr ⟨by decide, by decide⟩)
      (by intro p old hp hold
          injection hp with hp1
          subst hp1
          simp [wStateNewDigest, getNode, lookupKey, stampNode, createUuid] at hold
          rw [← hold.2])
  refine ⟨?_, ?_⟩
  · exact h1.1
      { id := "P/n"
        internal := { type := some "T", contentDigest := some "d", owner := some "P" } }
      (by decide) (by decide)
  · exact h2.2.2
      { id := "P/n"
        internal := { type := some "T", contentDigest := some "e", owner := some "P" } }
      (by decide) (by decide)

/-- A state where type `T` is owned by `P` and node `n` is owned by `Q`
(C10 witness fixture). -/
def wStateForeign : ActionState :=
  { nodes := [("n",
      { id := "n"
        internal := { type := some "T", contentDigest := some "e", owner := some "Q" } })]
    typeOwners := [("T", "P")] }

/-- Witness for C10: a plugin-less `createNode` succeeds with its id and
state untouched even though type `T` is owned by `P` and the stored node `n`
is owned by `Q`. -/
theorem createNode_without_plugin_no_checks_witness :
    ((createNode wNode none none wStateForeign).1 = .event (.touchNode none none wNode.id)
      ∨ (createNode wNode none none wStateForeign).1 = .event (.createNode none none wNode))
    ∧ (createNode wNode none none wStateForeign).2.1 = wNode
    ∧ (createNode wNode none none wStateForeign).2.2 = wStateForeign :=
  createNode_without_plugin_no_checks wNode none wStateForeign rfl (by decide) rfl
